import Mathlib

/-!
Shallow embedding, in Lean 4, of the reference-citation pipeline of the
search-assistant repository (`search_assistant/src/search_assistant.py`).

The embedding covers:
  * `parse_serp_analysis_output` — the regex substitution replacing
    `[reference:n]` citation markers with rendered markdown citations;
  * the context-building part of `querySerpapi` and its error handling;
  * `link_filter` together with the `urlparse`-based normalisation of
    excluded links that it performs;
  * the filtering phase of `web_crawl` and the no-links outcome of
    `search_and_scrape`;
  * the branch structure of `create_load_vector_store` and
    `create_and_save_local` (external vector-store calls abstracted as
    action labels);
  * `get_text_chunks_with_references` (the reference-tagging loop; the
    character-level text splitter is an external collaborator, so the
    splitter's output is taken as input);
  * `parse_retrieval_output` — the compact renumbering of citations over
    the sources actually used by the retrieval step.

Python-specific semantics that the source relies on are modelled
explicitly: negative list indexing (`links[ref_num - 1]` with
`ref_num = 0`), substring membership (`x in s`), `str.replace`, and the
membership test `'metadata' in chunk` on a pydantic object (which falls
back to `__iter__` and compares a string against `(field, value)` tuples).
Exceptions (`ValueError`, `KeyError`, `IndexError`) are modelled with
`Except`/`Option`; a `none`/`.error` result means the Python code raises.

One simplification, noted here once: Python's `re` module under
`re.IGNORECASE` with `\d` accepts any Unicode decimal digit and full
Unicode case folding; the embedding treats the ASCII range (`0`-`9`,
ASCII case folding), which covers every reference number this system
produces or documents.
-/

/-! ## The citation-marker scanner

`parse_serp_analysis_output` applies
`re.compile(r'\[reference: ?(\d+)\]|\[Reference: ?(\d+)\]', re.IGNORECASE).sub`
to the answer.  Under `IGNORECASE` both alternatives accept exactly the
same strings, and alternation prefers the first, so group 1 is always the
digit run.  `re.sub` scans left to right, replacing each leftmost
non-overlapping match; the scanner below walks the character list, trying
the pattern at every position, exactly mirroring that strategy.  At a given
position the pattern is deterministic: the optional space after the colon
is taken when present (if digits then fail to follow, the spaceless
alternative would put a space where a digit is required, so backtracking
cannot succeed), and the greedy digit run is maximal (a shorter run would
put a digit where `]` is required). -/

/-- The literal letters of the pattern word, lowercase. -/
def refWord : List Char := ['r', 'e', 'f', 'e', 'r', 'e', 'n', 'c', 'e']

/-- Match a fixed lowercase word case-insensitively at the head of the
input, returning the rest of the input on success. -/
def matchWordCI : List Char → List Char → Option (List Char)
  | [], cs => some cs
  | _ :: _, [] => none
  | p :: ps, c :: cs => if c.toLower = p then matchWordCI ps cs else none

/-- Python `int()` on a run of decimal digit characters. -/
def digitsToNat (ds : List Char) : Nat :=
  ds.foldl (fun a c => 10 * a + (c.toNat - 48)) 0

/-- Match `(\d+)\]` at the head of the input: a non-empty maximal run of
digits followed by a closing bracket. -/
def matchDigits (cs : List Char) : Option (Nat × List Char) :=
  match cs.dropWhile Char.isDigit with
  | ']' :: rest =>
    if (cs.takeWhile Char.isDigit).isEmpty then none
    else some (digitsToNat (cs.takeWhile Char.isDigit), rest)
  | _ => none

/-- Match ` ?(\d+)\]` at the head of the input (the part of the pattern
after the colon). -/
def matchOptSpace : List Char → Option (Nat × List Char)
  | [] => none
  | c :: cs => if c = ' ' then matchDigits cs else matchDigits (c :: cs)

/-- Try the whole pattern `\[reference: ?(\d+)\]` (case-insensitive) at the
head of the input, returning the reference number and the rest of the
input after the match. -/
def matchRefAt : List Char → Option (Nat × List Char)
  | [] => none
  | c :: rest =>
    if c = '[' then
      match matchWordCI refWord rest with
      | some (c2 :: rest2) => if c2 = ':' then matchOptSpace rest2 else none
      | _ => none
    else none

/-- A piece of the answer text after the `re.sub` scan: either a literal
character left untouched, or a matched citation marker carrying its
reference number. -/
inductive Piece where
  | lit : Char → Piece
  | ref : Nat → Piece
deriving DecidableEq, Repr

/-- The `re.sub` scan, expressed with explicit fuel so that the definition
is structural (the fuel is always at least the input length, and one
character is consumed per step at minimum). -/
def scanAux : Nat → List Char → List Piece
  | 0, _ => []
  | fuel + 1, cs =>
    match matchRefAt cs with
    | some (n, rest) => Piece.ref n :: scanAux fuel rest
    | none =>
      match cs with
      | [] => []
      | c :: rest => Piece.lit c :: scanAux fuel rest

/-- Decompose a text into literal characters and matched citation markers,
scanning left to right exactly as `re.sub` does. -/
def scanPieces (cs : List Char) : List Piece := scanAux cs.length cs

/-- Decides that no position of the text matches the citation-marker
pattern (the text has no `[reference:n]` substring). -/
def markerFree : List Char → Bool
  | [] => true
  | c :: cs => (matchRefAt (c :: cs)).isNone && markerFree cs

/-! ## Decimal rendering of numbers

Python's f-strings render the reference numbers with `str(int)`: minimal
decimal notation.  `natDigits` computes those digits (fuel keeps the
recursion structural; `n / 10` strictly decreases, so fuel `n + 1`
suffices). -/

def natDigitsAux : Nat → Nat → List Char
  | 0, _ => []
  | fuel + 1, n =>
    if n < 10 then [Nat.digitChar n]
    else natDigitsAux fuel (n / 10) ++ [Nat.digitChar (n % 10)]

/-- Decimal digit characters of `n`, most significant first, as Python
`str(n)` renders them. -/
def natDigits (n : Nat) : List Char := natDigitsAux (n + 1) n

/-- Python `str(n)` for a natural number. -/
def pyStrNat (n : Nat) : String := String.mk (natDigits n)

/-! ## Rendering citations -/

/-- The f-string `f'[<sup>{ref_num}</sup>]({url})'` of the source. -/
def renderCitation (n : Nat) (url : String) : String :=
  "[<sup>" ++ pyStrNat n ++ "</sup>](" ++ url ++ ")"

/-- Python list indexing `xs[i]`: a negative index counts from the end,
and an index out of bounds (after that adjustment) raises `IndexError`
(`none`). -/
def pyGet (xs : List String) (i : Int) : Option String :=
  if i < 0 then
    if (xs.length : Int) + i < 0 then none else xs[((xs.length : Int) + i).toNat]?
  else xs[i.toNat]?

/-- The `replace_reference` closure inside `parse_serp_analysis_output`:
a marker number with a corresponding link is rendered as a markdown
citation to `links[ref_num - 1]` (Python indexing, so `ref_num = 0`
reaches the LAST link, and raises `IndexError` when `links` is empty);
numbers beyond the list length render the dead-link placeholder. -/
def replace_reference (links : List String) (ref_num : Nat) : Option String :=
  if ref_num ≤ links.length then
    (pyGet links ((ref_num : Int) - 1)).map (fun u => renderCitation ref_num u)
  else some (renderCitation ref_num "#")

/-- Render one scanned piece: literal characters stand, matched markers go
through `replace_reference`. -/
def renderPieceChars (links : List String) : Piece → Option (List Char)
  | Piece.lit c => some [c]
  | Piece.ref n => (replace_reference links n).map String.toList

/-- Concatenate the rendered pieces left to right, propagating a raised
`IndexError` from any piece. -/
def renderPieces (links : List String) : List Piece → Option (List Char)
  | [] => some []
  | p :: ps =>
    match renderPieceChars links p, renderPieces links ps with
    | some a, some b => some (a ++ b)
    | _, _ => none

/-- Embedding of `SearchAssistant.parse_serp_analysis_output`: replaces
every `[reference:n]` / `[Reference: n]` marker in the answer with a
rendered citation (`none` models a raised exception). -/
def parse_serp_analysis_output (answer : String) (links : List String) : Option String :=
  (renderPieces links (scanPieces answer.toList)).map String.mk

/-- The reference numbers of the markers matched in a character list, in
scan order. -/
def refNumsC (cs : List Char) : List Nat :=
  (scanPieces cs).filterMap fun p =>
    match p with
    | Piece.ref n => some n
    | Piece.lit _ => none

/-- The reference numbers of the markers matched in a text, in order. -/
def refNums (s : String) : List Nat := refNumsC s.toList

/-! ## Building texts with markers (specification vocabulary)

`markerChars ds` is the canonical marker `[reference:` + digits + `]`.
`assembleChars t0 parts` is a text made of an initial segment followed by
alternating markers and segments; `assembleDead` is the same text with
every marker replaced by the dead-link placeholder. -/

/-- The characters of the literal marker `[reference:<ds>]`. -/
def markerChars (ds : List Char) : List Char :=
  '[' :: refWord ++ ':' :: ds ++ [']']

/-- A text assembled from an initial literal segment and an alternating
list of (marker digits, following literal segment) parts. -/
def assembleChars : List Char → List (List Char × List Char) → List Char
  | t0, [] => t0
  | t0, pr :: ps => t0 ++ (markerChars pr.1 ++ assembleChars pr.2 ps)

/-- The characters of the dead-link placeholder for marker number `n`. -/
def deadChars (n : Nat) : List Char := (renderCitation n "#").toList

/-- `assembleChars` with every marker replaced by its dead-link
placeholder. -/
def assembleDead : List Char → List (List Char × List Char) → List Char
  | t0, [] => t0
  | t0, pr :: ps => t0 ++ (deadChars (digitsToNat pr.1) ++ assembleDead pr.2 ps)

/-- The characters of a citation rendered for number `n` and URL `u`. -/
def citChars (n : Nat) (u : String) : List Char := (renderCitation n u).toList

/-! ## The SERP search client (`querySerpapi`)

The network call (`GoogleSearch(params).get_dict()`) is an external
collaborator; its outcome is passed in as an `Except`: `.error` models the
call raising (transport or parse failure), `.ok results` models a response
whose `organic_results` list is `results`.  The LLM analysis branch
(`do_analysis = True`) feeds the produced context to the language model —
another external collaborator — so the embedding covers the context and
link computation that both branches share (`do_analysis = False` returns
it directly). -/

/-- One entry of the `organic_results` list of a search response. -/
structure SerpResult where
  title : String
  snippet : String
  link : String
deriving DecidableEq, Repr

/-- The numbered context lines the source builds with
`f'[reference:{i+1}] {title}: {snippet}'`, with `k` the number of entries
already emitted (the source uses `enumerate`). -/
def serpEntries : Nat → List SerpResult → List String
  | _, [] => []
  | k, r :: rest =>
    ("[reference:" ++ pyStrNat (k + 1) ++ "] " ++ r.title ++ ": " ++ r.snippet)
      :: serpEntries (k + 1) rest

/-- Python `'\n\n'.join(entries)`. -/
def joinNN : List String → String
  | [] => ""
  | [e] => e
  | e :: rest => e ++ "\n\n" ++ joinNN rest

/-- The context string and link list `querySerpapi` computes from the
organic results: numbered snippet lines for a non-empty result list, the
`'Answer not found'` sentinel and an empty link list otherwise. -/
def querySerpapiContext (results : List SerpResult) : String × List String :=
  if results.length > 0 then
    (joinNN (serpEntries 0 results), results.map fun r => r.link)
  else ("Answer not found", [])

/-- Embedding of `SearchAssistant.querySerpapi` (context computation):
an engine other than `google` or `bing` raises `ValueError` before the
search outcome is consulted; a raising search call degrades to the
sentinel context with no links. -/
def querySerpapi (engine : String) (searchOutcome : Except String (List SerpResult)) :
    Except String (String × List String) :=
  if engine ≠ "google" ∧ engine ≠ "bing" then
    Except.error "engine must be either google or bing"
  else
    match searchOutcome with
    | Except.error _ => Except.ok ("Answer not found", [])
    | Except.ok results => Except.ok (querySerpapiContext results)

/-! ## `urlparse` normalisation and `link_filter`

`link_filter` normalises every excluded link to `netloc + path` with
`urllib.parse.urlparse` and drops any candidate link containing one of the
normalised fragments as a substring.  The embedding reproduces the parts
of CPython's `urlsplit`/`urlparse` that determine `netloc` and `path`:
scheme recognition (`letter (letter|digit|+|-|.)* :`), netloc after `//`
up to the next `/`, `?` or `#`, fragment cut at the first `#`, query cut
at the first `?`, and params cut at the first `;` of the last path
segment. -/

/-- Python substring membership `needle in hay` on character lists. -/
def pySubstr (needle : List Char) : List Char → Bool
  | [] => needle.isEmpty
  | c :: rest => needle.isPrefixOf (c :: rest) || pySubstr needle rest

/-- Characters allowed in a URL scheme after the leading letter. -/
def schemeChar (c : Char) : Bool := c.isAlpha || c.isDigit || c = '+' || c = '-' || c = '.'

/-- Split off a recognised scheme (returned lowercased, though the caller
here discards it); on no scheme the input is returned whole. -/
def splitScheme (cs : List Char) : List Char × List Char :=
  match cs.findIdx? (fun c => c = ':') with
  | some i =>
    let pre := cs.take i
    if 0 < i ∧ (pre.headD ' ').isAlpha ∧ pre.all schemeChar then
      (pre.map Char.toLower, cs.drop (i + 1))
    else ([], cs)
  | none => ([], cs)

/-- Split off the netloc: present only after a leading `//`, extending to
the next `/`, `?` or `#`. -/
def splitNetloc (cs : List Char) : List Char × List Char :=
  match cs with
  | '/' :: '/' :: rest =>
    (rest.takeWhile (fun c => c ≠ '/' ∧ c ≠ '?' ∧ c ≠ '#'),
     rest.dropWhile (fun c => c ≠ '/' ∧ c ≠ '?' ∧ c ≠ '#'))
  | _ => ([], cs)

/-- Python `s.split(c, 1)[0]`: everything before the first occurrence of
`c` (the whole string when `c` is absent). -/
def takeUntil (c : Char) (cs : List Char) : List Char := cs.takeWhile (fun x => x ≠ c)

/-- Split a path at its last `/`: `some (a, b)` with `p = a ++ '/' :: b`
and `b` slash-free, or `none` when the path has no slash. -/
def splitOnLastSlash (p : List Char) : Option (List Char × List Char) :=
  let b := (p.reverse.takeWhile (fun c => c ≠ '/')).reverse
  if b.length = p.length then none
  else some (p.take (p.length - b.length - 1), b)

/-- `urlparse`'s `_splitparams`: parameters are cut at the first `;` of
the last path segment only. -/
def splitParamsPath (p : List Char) : List Char :=
  match splitOnLastSlash p with
  | some (a, b) => if b.contains ';' then a ++ '/' :: takeUntil ';' b else p
  | none => takeUntil ';' p

/-- The schemes for which `urlparse` separates params from the last path
segment (CPython's `uses_params`, with the no-scheme case included). -/
def usesParams : List String :=
  ["", "ftp", "hdl", "prospero", "http", "imap", "https", "shttp", "rtsp",
   "rtsps", "rtspu", "sip", "sips", "mms", "sftp", "tel"]

/-- `urlparse(link).netloc + urlparse(link).path`, the normalisation
`link_filter` applies to every excluded link, following CPython's
`urlsplit`: leading C0-control/space characters stripped, tab/CR/LF
removed throughout, scheme recognised and lowercased, netloc after `//`,
fragment cut at the first `#`, query at the first `?`, and params split
only when the scheme is in `uses_params`.  (CPython additionally raises
`ValueError` on malformed IPv6 brackets in the netloc; such inputs are
outside the scope of the claims and not modelled.) -/
def urlparseNetlocPath (url : String) : String :=
  let cs0 := url.toList.dropWhile fun c => c.toNat ≤ 32
  let cs := cs0.filter fun c => c ≠ Char.ofNat 9 ∧ c ≠ Char.ofNat 13 ∧ c ≠ Char.ofNat 10
  let sp := splitScheme cs
  let nl := splitNetloc sp.2
  let path0 := takeUntil '?' (takeUntil '#' nl.2)
  let path := if usesParams.contains (String.mk sp.1) then splitParamsPath path0 else path0
  String.mk (nl.1 ++ path)

/-- Embedding of `SearchAssistant.link_filter`: keep the links containing
none of the normalised excluded fragments as a substring.  The source
returns a Python `set`; the embedding keeps the surviving links as a list,
so statements about the result are membership statements. -/
def link_filter (all_links excluded_links : List String) : List String :=
  let clean := excluded_links.map urlparseNetlocPath
  all_links.filter fun link => !(clean.any fun e => pySubstr e.toList link.toList)

/-! ## `web_crawl` and `search_and_scrape` outcomes -/

/-- The file suffixes `web_crawl` drops before filtering (the source holds
them in a set; only membership matters). -/
def excludedSuffixes : List String :=
  [".ico", ".svg", ".jpg", ".png", ".jpeg", ".", ".docx", ".xls", ".xlsx"]

/-- The message of the `ValueError` that `web_crawl` raises when filtering
leaves no link. -/
def webCrawlErrorMsg : String :=
  "not sites to scrape after filtering links, check the excluded_links config or increase Max number of results to retrieve"

/-- Embedding of the link-selection phase of `SearchAssistant.web_crawl`
(everything before the external HTML loading): the caller's excluded
links are extended with the configured ones, suffix-excluded URLs are
dropped, `link_filter` is applied, and an empty remainder raises
`ValueError`; otherwise the first `maxSites` survivors are scraped. -/
def web_crawl_filter (urls excluded_links config_excluded : List String) (maxSites : Nat) :
    Except String (List String) :=
  let ex := excluded_links ++ config_excluded
  let kept := urls.filter fun u => !(excludedSuffixes.any fun s => s.toList.isSuffixOf u.toList)
  let filtered := link_filter kept ex
  if filtered.length = 0 then Except.error webCrawlErrorMsg
  else Except.ok (filtered.take maxSites)

/-- A single-quote character, written via its code point. -/
def pyQuote : String := String.singleton (Char.ofNat 39)

/-- Embedding of the outcome branch of `SearchAssistant.search_and_scrape`
on the links returned by the search step: zero links short-circuits to the
message dictionary (`some message`); otherwise (`none`) the crawl/index
pipeline proceeds. -/
def search_and_scrape (query : String) (links : List String) : Option String :=
  if links.length > 0 then none
  else some ("No links found for " ++ pyQuote ++ query ++ pyQuote ++ ". Try again")

/-! ## Vector-store orchestration branches

`create_load_vector_store` and `create_and_save_local` delegate every
index mutation to the external `VectorDb` collaborator; what the source
decides is which call to make, based on `os.path.exists(persist_directory)`
(passed in as `dirExists`) and the `force_reload` / `update` flags.  The
embedding records the chosen call as a label. -/

/-- The external vector-store call a branch selects. -/
inductive VdbAction where
  | loadExisting
  | loadThenUpdate
  | updateOnly
  | createAt
  | createAtNone
deriving DecidableEq, Repr

/-- Embedding of the branch structure of
`SearchAssistant.create_load_vector_store`. -/
def create_load_vector_store (dirExists force_reload update : Bool) : VdbAction :=
  if dirExists ∧ ¬force_reload ∧ ¬update then VdbAction.loadExisting
  else if dirExists ∧ update then VdbAction.loadThenUpdate
  else VdbAction.createAt

/-- Embedding of the branch structure of
`SearchAssistant.create_and_save_local`: with `update` and an existing
directory it calls `update_vdb`; otherwise it creates, passing the
persist directory when it exists and `None` when it does not. -/
def create_and_save_local (dirExists update : Bool) : VdbAction :=
  if update ∧ dirExists then VdbAction.updateOnly
  else if dirExists then VdbAction.createAt
  else VdbAction.createAtNone

/-! ## Documents and the reference tagger

`get_text_chunks_with_references` iterates over the chunks produced by the
(external) `RecursiveCharacterTextSplitter`, which copies each source
document's metadata onto its chunks; the chunk list is therefore taken as
input.  A langchain chunk is a pydantic model with fields `page_content`
and `metadata`.  The source guards the tagging with
`'metadata' in chunk and 'source' in chunk.metadata`.  Python resolves
`x in obj` with `__contains__` when defined, else by iterating `obj`;
pydantic's `BaseModel` defines no `__contains__` but does define
`__iter__`, which yields `(field_name, field_value)` tuples.  So the test
compares the string `'metadata'` with each tuple by `==`, which is the
comparison `pyEq` below embeds. -/

/-- The Python values the membership test can compare: strings, the
`(name, value)` tuples pydantic iteration yields, and metadata dicts. -/
inductive PyObj where
  | pyStr : String → PyObj
  | pyField : String → PyObj → PyObj
  | pyDict : List (String × String) → PyObj

/-- Python `==` on the values above: values of different shapes are
unequal; tuples compare componentwise; dicts compare by their entries. -/
def pyEq : PyObj → PyObj → Bool
  | PyObj.pyStr a, PyObj.pyStr b => a = b
  | PyObj.pyField n v, PyObj.pyField n2 v2 => n = n2 && pyEq v v2
  | PyObj.pyDict d, PyObj.pyDict d2 => d = d2
  | _, _ => false

/-- A langchain document/chunk: `page_content` text and a `metadata`
string dict. -/
structure Document where
  page_content : String
  metadata : List (String × String)
deriving DecidableEq, Repr

/-- Pydantic `BaseModel.__iter__` on a `Document`: the `(name, value)`
pairs of its fields. -/
def Document.iterFields (d : Document) : List PyObj :=
  [PyObj.pyField "page_content" (PyObj.pyStr d.page_content),
   PyObj.pyField "metadata" (PyObj.pyDict d.metadata)]

/-- Python `x in chunk` for a pydantic `Document`: no `__contains__`, so
membership falls back to `__iter__` plus `==` on each yielded element. -/
def pyInDocument (x : PyObj) (d : Document) : Bool :=
  d.iterFields.any fun f => pyEq x f

/-- Python dict lookup on a dict built by successive insertions: the last
binding of a key wins. -/
def dictGetLast (d : List (String × String)) (k : String) : Option String :=
  (d.reverse.find? fun kv => kv.1 = k).map fun kv => kv.2

/-- Lookup in the `sources` dict `{site: i + 1 for i, site in
enumerate(urls)}`: the last occurrence of a duplicated URL wins. -/
def sourceNumber (urls : List String) (site : String) : Option Nat :=
  ((urls.enum.map fun pr => (pr.2, pr.1 + 1)).reverse.find? fun kv => kv.1 = site).map
    fun kv => kv.2

/-- Embedding of `SearchAssistant.get_text_chunks_with_references` (the
tagging loop over the splitter's output): each chunk whose metadata passes
the source's guard and whose source URL is a key of `sources` is tagged
`[reference:n]`, every other chunk `[reference:unknown]`. -/
def get_text_chunks_with_references (urls : List String) (chunks : List Document) :
    List Document :=
  chunks.map fun chunk =>
    if pyInDocument (PyObj.pyStr "metadata") chunk
        ∧ (chunk.metadata.any fun kv => kv.1 = "source") then
      match dictGetLast chunk.metadata "source" with
      | some reference =>
        match sourceNumber urls reference with
        | some n =>
          { chunk with
            page_content := "[reference:" ++ pyStrNat n ++ "] " ++ chunk.page_content ++ "\n\n" }
        | none =>
          { chunk with
            page_content := "[reference:unknown] " ++ chunk.page_content ++ "\n\n" }
      | none => chunk
    else
      { chunk with
        page_content := "[reference:unknown] " ++ chunk.page_content ++ "\n\n" }

/-! ## The retrieval citation remapper (`parse_retrieval_output`)

`parse_retrieval_output` first resolves raw markers against the full URL
list, collects the set of sources of the retrieval step's documents,
numbers that set 1..k, and rewrites each rendered citation whose URL
occurs (as a substring) in the answer.  CPython iterates a `set` in a
hash-determined order; the embedding numbers the used sources by first
appearance (the order the spec describes). The lookup
`question_sources_map[link]` raises `KeyError` (`none`) when `link` is not
a used source — the guard only checks that `link` occurs in the answer
text. -/

/-- Deduplicate, keeping each string's first occurrence. -/
def dedupAux : List String → List String → List String
  | _, [] => []
  | seen, s :: rest =>
    if seen.contains s then dedupAux seen rest else s :: dedupAux (s :: seen) rest

/-- The used-source set as a list in first-appearance order. -/
def dedupKeepFirst (l : List String) : List String := dedupAux [] l

/-- The loop of `parse_retrieval_output` over `enumerate(self.urls)`:
for each original position `i` whose URL occurs in the answer text,
replace its rendered citation with the compact-numbered one;
`qsources.findIdx?` failing models the `KeyError` of
`question_sources_map[link]`. -/
def remapLoop (qsources : List String) : List (Nat × String) → String → Option String
  | [], acc => some acc
  | (i, link) :: rest, acc =>
    if pySubstr link.toList acc.toList then
      match (qsources.findIdx? fun t => t = link).map (fun k => k + 1) with
      | some j => remapLoop qsources rest (acc.replace (renderCitation (i + 1) link) (renderCitation j link))
      | none => none
    else remapLoop qsources rest acc

/-- Embedding of `SearchAssistant.parse_retrieval_output`: `urls` is
`self.urls`, `sourceDocs` the `metadata['source']` values of the retrieval
step's documents in order, `answer` the generated answer.  `none` models a
raised exception. -/
def parse_retrieval_output (urls sourceDocs : List String) (answer : String) : Option String :=
  match parse_serp_analysis_output answer urls with
  | none => none
  | some parsed => remapLoop (dedupKeepFirst sourceDocs) urls.enum parsed

/-! # Theorems

First the infrastructure about the scanner: matches consume input, the
fueled scan is fuel-irrelevant, and the scan decomposes over literal
segments and canonical markers. -/

theorem matchWordCI_some_length {ps : List Char} :
    ∀ {cs r : List Char}, matchWordCI ps cs = some r → r.length ≤ cs.length := by
  induction ps with
  | nil =>
    intro cs r h
    simp only [matchWordCI, Option.some.injEq] at h
    subst h; exact le_refl _
  | cons p ps ih =>
    intro cs r h
    cases cs with
    | nil => simp [matchWordCI] at h
    | cons c cs =>
      simp only [matchWordCI] at h
      split at h
      · exact le_trans (ih h) (Nat.le_succ _)
      · exact absurd h (by simp)

theorem matchDigits_some_length {cs rest : List Char} {n : Nat}
    (h : matchDigits cs = some (n, rest)) : rest.length < cs.length := by
  unfold matchDigits at h
  split at h
  next rest0 heq =>
    split at h
    · exact absurd h (by simp)
    · have hlen := congrArg List.length (List.takeWhile_append_dropWhile Char.isDigit cs)
      rw [heq] at hlen
      simp only [List.length_append, List.length_cons] at hlen
      have hr : rest = rest0 := by
        simp only [Option.some.injEq, Prod.mk.injEq] at h
        exact h.2.symm
      subst hr
      omega
  next => exact absurd h (by simp)

theorem matchOptSpace_some_length {cs r : List Char} {n : Nat}
    (h : matchOptSpace cs = some (n, r)) : r.length < cs.length := by
  cases cs with
  | nil => simp [matchOptSpace] at h
  | cons c rest =>
    simp only [matchOptSpace] at h
    split at h
    · have := matchDigits_some_length h
      simp only [List.length_cons]
      omega
    · exact matchDigits_some_length h

theorem matchRefAt_some_length {cs r : List Char} {n : Nat}
    (h : matchRefAt cs = some (n, r)) : r.length < cs.length := by
  cases cs with
  | nil => simp [matchRefAt] at h
  | cons c rest =>
    simp only [matchRefAt] at h
    split at h
    · split at h
      next c2 rest2 hw =>
        split at h
        · have h1 : (c2 :: rest2).length ≤ rest.length := matchWordCI_some_length hw
          have h2 : r.length < rest2.length := matchOptSpace_some_length h
          simp only [List.length_cons] at h1 ⊢
          omega
        · exact absurd h (by simp)
      next => exact absurd h (by simp)
    · exact absurd h (by simp)

theorem scanAux_nil : ∀ fuel, scanAux fuel [] = [] := by
  intro fuel; cases fuel <;> rfl

theorem scanAux_congr : ∀ (f1 f2 : Nat) {cs : List Char},
    cs.length ≤ f1 → cs.length ≤ f2 → scanAux f1 cs = scanAux f2 cs := by
  intro f1
  induction f1 with
  | zero =>
    intro f2 cs h1 _
    have : cs = [] := List.eq_nil_of_length_eq_zero (Nat.le_zero.mp h1)
    subst this
    rw [scanAux_nil, scanAux_nil]
  | succ f ih =>
    intro f2 cs h1 h2
    cases cs with
    | nil => rw [scanAux_nil, scanAux_nil]
    | cons c rest =>
      cases f2 with
      | zero => simp at h2
      | succ g =>
        cases hm : matchRefAt (c :: rest) with
        | some pr =>
          obtain ⟨n, r⟩ := pr
          have hl := matchRefAt_some_length hm
          simp only [List.length_cons] at hl h1 h2
          simp only [scanAux, hm]
          rw [ih g (by omega) (by omega)]
        | none =>
          simp only [List.length_cons] at h1 h2
          simp only [scanAux, hm]
          rw [ih g (by omega) (by omega)]

theorem scanPieces_match {cs r : List Char} {n : Nat}
    (h : matchRefAt cs = some (n, r)) : scanPieces cs = Piece.ref n :: scanPieces r := by
  cases cs with
  | nil => simp [matchRefAt] at h
  | cons c rest =>
    have hl := matchRefAt_some_length h
    simp only [List.length_cons] at hl
    unfold scanPieces
    simp only [List.length_cons, scanAux, h]
    rw [scanAux_congr rest.length r.length (by omega) (le_refl _)]

theorem scanPieces_nomatch {c : Char} {cs : List Char}
    (h : matchRefAt (c :: cs) = none) : scanPieces (c :: cs) = Piece.lit c :: scanPieces cs := by
  unfold scanPieces
  simp only [List.length_cons, scanAux, h]

theorem matchRefAt_cons_ne {c : Char} {cs : List Char} (h : c ≠ '[') :
    matchRefAt (c :: cs) = none := by
  simp [matchRefAt, h]

theorem scanPieces_lit_append : ∀ {p : List Char}, '[' ∉ p →
    ∀ cs, scanPieces (p ++ cs) = p.map Piece.lit ++ scanPieces cs := by
  intro p
  induction p with
  | nil => intro _ cs; simp
  | cons c t ih =>
    intro hp cs
    have hc : c ≠ '[' := fun e => hp (by simp [e])
    rw [List.cons_append, scanPieces_nomatch (matchRefAt_cons_ne hc), List.map_cons,
      List.cons_append, ih (fun m => hp (List.mem_cons_of_mem _ m)) cs]

theorem matchWordCI_refWord (X : List Char) : matchWordCI refWord (refWord ++ X) = some X := rfl

theorem digits_split : ∀ (ds cs : List Char), (∀ c ∈ ds, c.isDigit = true) →
    (ds ++ ']' :: cs).takeWhile Char.isDigit = ds ∧
    (ds ++ ']' :: cs).dropWhile Char.isDigit = ']' :: cs := by
  intro ds
  induction ds with
  | nil =>
    intro cs _
    have hb : (']' : Char).isDigit = false := rfl
    constructor <;> simp [List.takeWhile_cons, List.dropWhile_cons, hb]
  | cons d t ih =>
    intro cs h
    have hd : d.isDigit = true := h d (by simp)
    have ht := ih cs (fun c hc => h c (by simp [hc]))
    constructor <;>
      simp [List.takeWhile_cons, List.dropWhile_cons, hd, ht.1, ht.2]

theorem matchRefAt_marker {ds : List Char} (h1 : ds ≠ [])
    (h2 : ∀ c ∈ ds, c.isDigit = true) (cs : List Char) :
    matchRefAt (markerChars ds ++ cs) = some (digitsToNat ds, cs) := by
  obtain ⟨d, t, rfl⟩ : ∃ d t, ds = d :: t := by
    cases ds with
    | nil => exact absurd rfl h1
    | cons d t => exact ⟨d, t, rfl⟩
  have hd : d.isDigit = true := h2 d (by simp)
  have hdsp : d ≠ ' ' := by
    intro e
    rw [e] at hd
    exact absurd hd (by decide)
  have hsplit := digits_split (d :: t) cs h2
  have e : markerChars (d :: t) ++ cs
      = '[' :: (refWord ++ (':' :: ((d :: t) ++ (']' :: cs)))) := by
    simp [markerChars]
  rw [e]
  simp only [matchRefAt, if_pos rfl, matchWordCI_refWord, if_pos rfl, List.cons_append,
    matchOptSpace, if_neg hdsp]
  unfold matchDigits
  rw [show d :: (t ++ ']' :: cs) = (d :: t) ++ ']' :: cs from rfl, hsplit.1, hsplit.2]
  simp

theorem scanPieces_marker {ds : List Char} (h1 : ds ≠ [])
    (h2 : ∀ c ∈ ds, c.isDigit = true) (cs : List Char) :
    scanPieces (markerChars ds ++ cs) = Piece.ref (digitsToNat ds) :: scanPieces cs :=
  scanPieces_match (matchRefAt_marker h1 h2 cs)

theorem scanPieces_markerFree : ∀ {cs : List Char}, markerFree cs = true →
    scanPieces cs = cs.map Piece.lit := by
  intro cs
  induction cs with
  | nil => intro _; rfl
  | cons c t ih =>
    intro h
    simp only [markerFree, Bool.and_eq_true, Option.isNone_iff_eq_none] at h
    rw [scanPieces_nomatch h.1, ih h.2, List.map_cons]

theorem renderPieces_lit_map (links : List String) : ∀ p : List Char,
    renderPieces links (p.map Piece.lit) = some p := by
  intro p
  induction p with
  | nil => rfl
  | cons c t ih => simp [renderPieces, renderPieceChars, ih]

theorem renderPieces_append {links : List String} {a : List Piece} :
    ∀ {b : List Piece} {x y : List Char}, renderPieces links a = some x →
    renderPieces links b = some y → renderPieces links (a ++ b) = some (x ++ y) := by
  induction a with
  | nil =>
    intro b x y ha hb
    simp only [renderPieces, Option.some.injEq] at ha
    subst ha
    simpa using hb
  | cons p t ih =>
    intro b x y ha hb
    simp only [renderPieces] at ha ⊢
    cases hp : renderPieceChars links p with
    | none => rw [hp] at ha; simp at ha
    | some u =>
      rw [hp] at ha
      cases ht : renderPieces links t with
      | none => rw [ht] at ha; simp at ha
      | some v =>
        rw [ht] at ha
        simp only [Option.some.injEq] at ha
        rw [List.append_eq, ih ht hb]
        simp [← ha, List.append_assoc]

theorem replace_reference_out_of_range {links : List String} {n : Nat}
    (h : links.length < n) : replace_reference links n = some (renderCitation n "#") := by
  unfold replace_reference
  rw [if_neg (Nat.not_le.mpr h)]

theorem natDigitsAux_congr : ∀ (f1 f2 n : Nat), n < f1 → n < f2 →
    natDigitsAux f1 n = natDigitsAux f2 n := by
  intro f1
  induction f1 with
  | zero => intro f2 n h1 _; omega
  | succ f ih =>
    intro f2 n h1 h2
    cases f2 with
    | zero => omega
    | succ g =>
      simp only [natDigitsAux]
      by_cases hn : n < 10
      · simp [hn]
      · simp only [if_neg hn]
        have hd : n / 10 < n := Nat.div_lt_self (by omega) (by omega)
        rw [ih g (n / 10) (by omega) (by omega)]

theorem natDigits_unfold (n : Nat) : natDigits n =
    if n < 10 then [Nat.digitChar n] else natDigits (n / 10) ++ [Nat.digitChar (n % 10)] := by
  show natDigitsAux (n + 1) n = _
  by_cases hn : n < 10
  · simp [natDigitsAux, hn]
  · simp only [natDigitsAux, if_neg hn]
    have hd : n / 10 < n := Nat.div_lt_self (by omega) (by omega)
    rw [natDigitsAux_congr n (n / 10 + 1) (n / 10) (by omega) (by omega)]
    rfl

theorem digitChar_val {d : Nat} (h : d < 10) :
    (Nat.digitChar d).toNat = 48 + d ∧ (Nat.digitChar d).isDigit = true := by
  interval_cases d <;> exact ⟨rfl, rfl⟩

theorem digitsToNat_append (xs : List Char) (c : Char) :
    digitsToNat (xs ++ [c]) = 10 * digitsToNat xs + (c.toNat - 48) := by
  unfold digitsToNat
  rw [List.foldl_append]
  rfl

theorem digitsToNat_natDigits : ∀ n, digitsToNat (natDigits n) = n := by
  intro n
  induction n using Nat.strong_induction_on with
  | _ n ih =>
    rw [natDigits_unfold]
    by_cases hn : n < 10
    · rw [if_pos hn]
      have hv := (digitChar_val hn).1
      unfold digitsToNat
      simp only [List.foldl_cons, List.foldl_nil]
      omega
    · rw [if_neg hn]
      rw [digitsToNat_append]
      have hd : n / 10 < n := Nat.div_lt_self (by omega) (by omega)
      rw [ih _ hd]
      have hv := (digitChar_val (Nat.mod_lt n (by omega) : n % 10 < 10)).1
      omega

theorem natDigits_ne_nil (n : Nat) : natDigits n ≠ [] := by
  rw [natDigits_unfold]
  by_cases hn : n < 10 <;> simp [hn]

theorem natDigits_all_digits : ∀ n, ∀ c ∈ natDigits n, c.isDigit = true := by
  intro n
  induction n using Nat.strong_induction_on with
  | _ n ih =>
    intro c hc
    rw [natDigits_unfold] at hc
    by_cases hn : n < 10
    · rw [if_pos hn] at hc
      simp only [List.mem_singleton] at hc
      subst hc
      exact (digitChar_val hn).2
    · rw [if_neg hn] at hc
      simp only [List.mem_append, List.mem_singleton] at hc
      rcases hc with hc | hc
      · exact ih _ (Nat.div_lt_self (by omega) (by omega)) c hc
      · subst hc
        exact (digitChar_val (Nat.mod_lt n (by omega))).2

theorem renderScan_assemble_dead (links : List String) :
    ∀ (parts : List (List Char × List Char)) (t0 : List Char), '[' ∉ t0 →
    (∀ pr ∈ parts, pr.1 ≠ [] ∧ (∀ c ∈ pr.1, c.isDigit = true) ∧ '[' ∉ pr.2) →
    (∀ pr ∈ parts, links.length < digitsToNat pr.1) →
    renderPieces links (scanPieces (assembleChars t0 parts)) = some (assembleDead t0 parts) := by
  intro parts
  induction parts with
  | nil =>
    intro t0 h0 _ _
    have h := scanPieces_lit_append h0 []
    rw [List.append_nil] at h
    show renderPieces links (scanPieces t0) = some t0
    rw [h]
    have h2 := renderPieces_lit_map links t0
    rw [show scanPieces [] = [] from rfl, List.append_nil]
    exact h2
  | cons pr ps ih =>
    intro t0 h0 h1 h2
    obtain ⟨hne, hdig, hseg⟩ := h1 pr (by simp)
    show renderPieces links (scanPieces (t0 ++ (markerChars pr.1 ++ assembleChars pr.2 ps)))
      = some (t0 ++ (deadChars (digitsToNat pr.1) ++ assembleDead pr.2 ps))
    rw [scanPieces_lit_append h0, scanPieces_marker hne hdig]
    have hrest := ih pr.2 hseg (fun q hq => h1 q (by simp [hq])) (fun q hq => h2 q (by simp [hq]))
    have hplace : renderPieceChars links (Piece.ref (digitsToNat pr.1))
        = some (deadChars (digitsToNat pr.1)) := by
      simp only [renderPieceChars, replace_reference_out_of_range (h2 pr (by simp)),
        Option.map_some]
      rfl
    have htail : renderPieces links
        (Piece.ref (digitsToNat pr.1) :: scanPieces (assembleChars pr.2 ps))
        = some (deadChars (digitsToNat pr.1) ++ assembleDead pr.2 ps) := by
      simp only [renderPieces, hplace, hrest]
    exact renderPieces_append (renderPieces_lit_map links t0) htail

theorem pyGet_last (init : List String) (u : String) :
    pyGet (init ++ [u]) (((0 : Nat) : Int) - 1) = some u := by
  unfold pyGet
  have h1 : (((0 : Nat) : Int) - 1) < 0 := by norm_num
  rw [if_pos h1]
  have h2 : ¬(((init ++ [u]).length : Int) + (((0 : Nat) : Int) - 1) < 0) := by
    push_cast [List.length_append, List.length_singleton]
    omega
  rw [if_neg h2]
  have h3 : ((((init ++ [u]).length : Int) + (((0 : Nat) : Int) - 1)).toNat) = init.length := by
    push_cast [List.length_append, List.length_singleton]
    omega
  rw [h3]
  exact List.getElem?_concat_length init u

/-! # The claims -/

theorem renderPieces_isSome {links : List String} :
    ∀ {ps : List Piece}, (∀ n, Piece.ref n ∈ ps → links.length < n) →
    (renderPieces links ps).isSome = true := by
  intro ps
  induction ps with
  | nil => intro _; rfl
  | cons p t ih =>
    intro h
    have ht := ih fun n hn => h n (List.mem_cons_of_mem _ hn)
    cases hrt : renderPieces links t with
    | none => rw [hrt] at ht; simp at ht
    | some v =>
      cases p with
      | lit c => simp [renderPieces, renderPieceChars, hrt]
      | ref n =>
        have hn := h n (by simp)
        simp [renderPieces, renderPieceChars, replace_reference_out_of_range hn, hrt]

/-- C5 (confirmed).  First part: on any text assembled from '['-free
literal segments and citation markers whose numbers all exceed the number
of known links, `parse_serp_analysis_output` replaces every marker with
the dead-link placeholder `[<sup>n</sup>](#)`, leaves every other
character unchanged, and returns normally.  Second part: on EVERY answer
text whose matched marker numbers all exceed the number of known links,
the operation returns normally (never raises). -/
theorem out_of_range_markers_dead_links :
    (∀ (links : List String) (t0 : List Char)
      (parts : List (List Char × List Char)), '[' ∉ t0 →
      (∀ pr ∈ parts, pr.1 ≠ [] ∧ (∀ c ∈ pr.1, c.isDigit = true) ∧ '[' ∉ pr.2) →
      (∀ pr ∈ parts, links.length < digitsToNat pr.1) →
      parse_serp_analysis_output (String.mk (assembleChars t0 parts)) links
        = some (String.mk (assembleDead t0 parts))) ∧
    (∀ (links : List String) (t : String), (∀ n ∈ refNums t, links.length < n) →
      (parse_serp_analysis_output t links).isSome = true) := by
  constructor
  · intro links t0 parts h0 h1 h2
    unfold parse_serp_analysis_output
    rw [show (String.mk (assembleChars t0 parts)).toList = assembleChars t0 parts from rfl]
    rw [renderScan_assemble_dead links parts t0 h0 h1 h2]
    rfl
  · intro links t h
    have hr : (renderPieces links (scanPieces t.toList)).isSome = true := by
      apply renderPieces_isSome
      intro n hn
      apply h
      unfold refNums refNumsC
      rw [List.mem_filterMap]
      exact ⟨Piece.ref n, hn, rfl⟩
    cases hx : renderPieces links (scanPieces t.toList) with
    | none => rw [hx] at hr; simp at hr
    | some v =>
      unfold parse_serp_analysis_output
      rw [hx]
      rfl

/-- Witness for C5 at concrete inputs: one out-of-range marker
(marker 2, one link) inside plain text is replaced by the placeholder;
a text with marker 9 against one link does not raise. -/
theorem out_of_range_markers_dead_links_witness :
    (parse_serp_analysis_output "see [reference:2] ok" ["http://x"]
      = some "see [<sup>2</sup>](#) ok") ∧
    (parse_serp_analysis_output "see [reference:9] ok" ["http://x"]).isSome = true := by
  constructor
  · have h := out_of_range_markers_dead_links.1 ["http://x"] "see ".toList
      [(['2'], " ok".toList)] (by decide) (by decide) (by decide)
    have e1 : ("see [reference:2] ok" : String)
        = String.mk (assembleChars "see ".toList [(['2'], " ok".toList)]) := by decide
    have e2 : ("see [<sup>2</sup>](#) ok" : String)
        = String.mk (assembleDead "see ".toList [(['2'], " ok".toList)]) := by decide
    rw [e1, e2]
    exact h
  · exact out_of_range_markers_dead_links.2 ["http://x"] "see [reference:9] ok" (by decide)

/-- C8 (confirmed).  `parse_serp_analysis_output` is the identity on any
text in which no position matches the citation-marker pattern, for every
reference index. -/
theorem linkify_identity_marker_free (t : String) (links : List String)
    (h : markerFree t.toList = true) :
    parse_serp_analysis_output t links = some t := by
  unfold parse_serp_analysis_output
  rw [scanPieces_markerFree h, renderPieces_lit_map]
  rfl

/-- Witness for C8 at the spec's own example text, which contains the
word `reference` and a colon but no bracketed marker. -/
theorem linkify_identity_marker_free_witness :
    markerFree ("reference: see footnote").toList = true ∧
    parse_serp_analysis_output "reference: see footnote" ["http://x"]
      = some "reference: see footnote" :=
  ⟨by decide, linkify_identity_marker_free "reference: see footnote" ["http://x"] (by decide)⟩

/-- C10 (confirmed).  For a non-empty link list, the marker
`[reference:0]` passes the bound check (`0 <= len(links)`) and Python's
negative indexing makes `links[-1]` the LAST link, so the marker is
replaced by a citation to the last link, not by the dead-link
placeholder. -/
theorem marker_zero_maps_last_link (init : List String) (u : String) (t0 s : List Char)
    (h0 : '[' ∉ t0) (hs : '[' ∉ s) :
    parse_serp_analysis_output (String.mk (assembleChars t0 [(['0'], s)])) (init ++ [u])
      = some (String.mk (t0 ++ (citChars 0 u ++ s))) := by
  unfold parse_serp_analysis_output
  rw [show (String.mk (assembleChars t0 [(['0'], s)])).toList
      = t0 ++ (markerChars ['0'] ++ s) from by
    simp [assembleChars]]
  rw [scanPieces_lit_append h0, scanPieces_marker (by decide) (by decide)]
  have hz : digitsToNat ['0'] = 0 := by decide
  rw [hz]
  have hrr : replace_reference (init ++ [u]) 0 = some (renderCitation 0 u) := by
    unfold replace_reference
    rw [if_pos (Nat.zero_le _), pyGet_last]
    rfl
  have hscan : scanPieces s = s.map Piece.lit := by
    have h := scanPieces_lit_append hs []
    rw [List.append_nil] at h
    rw [h, show scanPieces [] = [] from rfl, List.append_nil]
  rw [hscan]
  have htail : renderPieces (init ++ [u]) (Piece.ref 0 :: s.map Piece.lit)
      = some (citChars 0 u ++ s) := by
    simp only [renderPieces, renderPieceChars, hrr, Option.map_some,
      renderPieces_lit_map]
    rfl
  rw [renderPieces_append (renderPieces_lit_map (init ++ [u]) t0) htail]
  rfl

/-- Witness for C10 at a concrete input: two links, marker `0`, citation
rendered to the second (last) link. -/
theorem marker_zero_maps_last_link_witness :
    parse_serp_analysis_output "x [reference:0] y" ["http://a", "http://b"]
      = some "x [<sup>0</sup>](http://b) y" := by
  have h := marker_zero_maps_last_link ["http://a"] "http://b" "x ".toList " y".toList
    (by decide) (by decide)
  have e1 : ("x [reference:0] y" : String)
      = String.mk (assembleChars "x ".toList [(['0'], " y".toList)]) := by decide
  have e2 : ("x [<sup>0</sup>](http://b) y" : String)
      = String.mk ("x ".toList ++ (citChars 0 "http://b" ++ " y".toList)) := by decide
  have e3 : ["http://a", "http://b"] = ["http://a"] ++ ["http://b"] := rfl
  rw [e1, e2, e3]
  exact h

theorem toList_append (s t : String) : (s ++ t).toList = s.toList ++ t.toList :=
  String.data_append s t

theorem filterMap_ref_map_lit (p : List Char) :
    (p.map Piece.lit).filterMap (fun q =>
      match q with
      | Piece.ref n => some n
      | Piece.lit _ => none) = [] := by
  induction p with
  | nil => rfl
  | cons c t ih => simp [List.filterMap_cons, ih]

theorem refNumsC_lit_append {p : List Char} (hp : '[' ∉ p) (cs : List Char) :
    refNumsC (p ++ cs) = refNumsC cs := by
  unfold refNumsC
  rw [scanPieces_lit_append hp, List.filterMap_append, filterMap_ref_map_lit,
    List.nil_append]

theorem refNumsC_marker {ds : List Char} (h1 : ds ≠ [])
    (h2 : ∀ c ∈ ds, c.isDigit = true) (cs : List Char) :
    refNumsC (markerChars ds ++ cs) = digitsToNat ds :: refNumsC cs := by
  unfold refNumsC
  rw [scanPieces_marker h1 h2, List.filterMap_cons]

theorem serpEntry_decomp (k : Nat) (t sn : String) :
    ("[reference:" ++ pyStrNat (k + 1) ++ "] " ++ t ++ ": " ++ sn).toList
      = markerChars (natDigits (k + 1))
        ++ (' ' :: (t.toList ++ (':' :: (' ' :: sn.toList)))) := by
  have h1 : ("[reference:" : String).toList = '[' :: refWord ++ [':'] := by decide
  have h2 : ("] " : String).toList = [']', ' '] := by decide
  have h3 : (": " : String).toList = [':', ' '] := by decide
  have h4 : (pyStrNat (k + 1)).data = natDigits (k + 1) := rfl
  simp [toList_append, h1, h2, h3, h4, markerChars, refWord, List.append_assoc]

theorem refNums_serp_context : ∀ (R : List SerpResult) (k : Nat),
    (∀ r ∈ R, '[' ∉ r.title.toList ∧ '[' ∉ r.snippet.toList) →
    refNumsC (joinNN (serpEntries k R)).toList = List.range' (k + 1) R.length := by
  intro R
  induction R with
  | nil => intro k _; rfl
  | cons r rest ih =>
    intro k h
    obtain ⟨ht, hs⟩ := h r (by simp)
    have hseg : '[' ∉ (' ' :: (r.title.toList ++ (':' :: (' ' :: r.snippet.toList)))) := by
      simp only [List.mem_cons, List.mem_append, not_or]
      exact ⟨by decide, ht, by decide, by decide, hs⟩
    cases rest with
    | nil =>
      show refNumsC ("[reference:" ++ pyStrNat (k + 1) ++ "] "
          ++ r.title ++ ": " ++ r.snippet).toList = _
      rw [serpEntry_decomp,
        refNumsC_marker (natDigits_ne_nil _) (natDigits_all_digits _)]
      have hnil : refNumsC (' ' :: (r.title.toList ++ (':' :: (' ' :: r.snippet.toList))))
          = [] := by
        have h2 := refNumsC_lit_append hseg []
        rw [List.append_nil] at h2
        rw [h2]
        rfl
      rw [hnil, digitsToNat_natDigits]
      rfl
    | cons r2 rest2 =>
      show refNumsC ((("[reference:" ++ pyStrNat (k + 1) ++ "] "
            ++ r.title ++ ": " ++ r.snippet) ++ "\n\n")
          ++ joinNN (serpEntries (k + 1) (r2 :: rest2))).toList = _
      rw [toList_append, toList_append, serpEntry_decomp]
      have hnn : ("\n\n" : String).toList = ['\n', '\n'] := by decide
      rw [hnn, List.append_assoc, List.append_assoc]
      rw [refNumsC_marker (natDigits_ne_nil _) (natDigits_all_digits _)]
      rw [← List.append_assoc (' ' :: (r.title.toList ++ (':' :: (' ' :: r.snippet.toList))))
        ['\n', '\n'] (joinNN (serpEntries (k + 1) (r2 :: rest2))).toList]
      have hseg2 : '[' ∉ ((' ' :: (r.title.toList ++ (':' :: (' ' :: r.snippet.toList))))
          ++ ['\n', '\n']) := by
        simp only [List.mem_append, not_or]
        exact ⟨hseg, by decide⟩
      rw [refNumsC_lit_append hseg2,
        ih (k + 1) (fun q hq => h q (by simp [hq])), digitsToNat_natDigits]
      simp only [List.length_cons]
      simp [List.range'_succ]

/-- C6 (confirmed).  The context `querySerpapi` builds from a non-empty
result list is the blank-line-joined list of the `|R|` entries
`[reference:i+1] title: snippet`; when titles and snippets contain no
bracket it carries exactly the markers 1..|R| in result order, and the
links are the result links in order.  An empty result list instead yields
the sentinel `Answer not found` with an empty link list. -/
theorem serp_context_numbering :
    (∀ R : List SerpResult, R ≠ [] →
      (∀ r ∈ R, '[' ∉ r.title.toList ∧ '[' ∉ r.snippet.toList) →
      refNums (querySerpapiContext R).1 = List.range' 1 R.length ∧
      (querySerpapiContext R).1 = joinNN (serpEntries 0 R) ∧
      (querySerpapiContext R).2 = R.map fun r => r.link) ∧
    querySerpapiContext [] = ("Answer not found", []) := by
  constructor
  · intro R hR h
    have hlen : R.length > 0 := by
      cases R with
      | nil => exact absurd rfl hR
      | cons a t => simp
    unfold querySerpapiContext
    rw [if_pos hlen]
    exact ⟨refNums_serp_context R 0 h, rfl, rfl⟩
  · rfl

/-- Witness for C6 at a concrete two-result list. -/
theorem serp_context_numbering_witness :
    refNums (querySerpapiContext
      [⟨"T1", "S1", "http://l1"⟩, ⟨"T2", "S2", "http://l2"⟩]).1 = [1, 2] ∧
    (querySerpapiContext
      [⟨"T1", "S1", "http://l1"⟩, ⟨"T2", "S2", "http://l2"⟩]).2
      = ["http://l1", "http://l2"] := by
  have h := serp_context_numbering.1
    [⟨"T1", "S1", "http://l1"⟩, ⟨"T2", "S2", "http://l2"⟩] (by decide) (by decide)
  exact ⟨h.1.trans (by decide), h.2.2⟩

/-- C7 (confirmed).  `querySerpapi`: an engine outside {google, bing}
raises `ValueError` whatever the search outcome would be (the check
precedes the network call); a raising search call, and an empty
organic-results set, both return the sentinel context `Answer not found`
with an empty link list instead of propagating. -/
theorem serp_client_error_handling :
    (∀ (engine : String) (outcome : Except String (List SerpResult)),
        engine ≠ "google" → engine ≠ "bing" →
        querySerpapi engine outcome
          = Except.error "engine must be either google or bing") ∧
    (∀ (engine msg : String), engine = "google" ∨ engine = "bing" →
        querySerpapi engine (Except.error msg)
          = Except.ok ("Answer not found", [])) ∧
    (∀ engine : String, engine = "google" ∨ engine = "bing" →
        querySerpapi engine (Except.ok [])
          = Except.ok ("Answer not found", [])) := by
  refine ⟨?_, ?_, ?_⟩
  · intro e o h1 h2
    simp [querySerpapi, h1, h2]
  · intro e msg h
    rcases h with h | h <;> subst h <;> rfl
  · intro e h
    rcases h with h | h <;> subst h <;> rfl

/-- Witness for C7: an unknown engine fails fast even with results
available; `google`/`bing` degrade a raising call and an empty result set
to the sentinel. -/
theorem serp_client_error_handling_witness :
    querySerpapi "duckduckgo" (Except.ok [⟨"T", "S", "http://l"⟩])
      = Except.error "engine must be either google or bing" ∧
    querySerpapi "google" (Except.error "transport failure")
      = Except.ok ("Answer not found", []) ∧
    querySerpapi "bing" (Except.ok []) = Except.ok ("Answer not found", []) :=
  ⟨serp_client_error_handling.1 "duckduckgo" (Except.ok [⟨"T", "S", "http://l"⟩])
      (by decide) (by decide),
   serp_client_error_handling.2.1 "google" "transport failure" (Or.inl rfl),
   serp_client_error_handling.2.2 "bing" (Or.inr rfl)⟩

/-- C9 (confirmed).  `link_filter` never keeps a link containing, as a
substring, any excluded entry normalised to netloc+path; with an empty
excluded list it keeps exactly the input links. -/
theorem link_filter_exclusion_roundtrip :
    (∀ (all ex : List String) (l : String), l ∈ link_filter all ex →
      ∀ e ∈ ex, pySubstr (urlparseNetlocPath e).toList l.toList = false) ∧
    (∀ (all : List String) (l : String), l ∈ link_filter all [] ↔ l ∈ all) := by
  constructor
  · intro all ex l hl e he
    simp only [link_filter] at hl
    rw [List.mem_filter] at hl
    have h2 := hl.2
    cases hb : pySubstr (urlparseNetlocPath e).toList l.toList with
    | false => rfl
    | true =>
      exfalso
      have hmem : urlparseNetlocPath e ∈ ex.map urlparseNetlocPath :=
        List.mem_map_of_mem _ he
      have hany : (ex.map urlparseNetlocPath).any
          (fun q => pySubstr q.toList l.toList) = true :=
        List.any_eq_true.mpr ⟨_, hmem, hb⟩
      rw [hany] at h2
      simp at h2
  · intro all l
    simp [link_filter, List.mem_filter]

/-- Witness for C9: `https://bad.com/y?q=1` normalises to `bad.com/y`;
the survivor `http://a.com/x` contains no normalised excluded fragment. -/
theorem link_filter_exclusion_roundtrip_witness :
    pySubstr (urlparseNetlocPath "https://bad.com/y?q=1").toList
      ("http://a.com/x").toList = false ∧
    ("http://b.com/z" ∈ link_filter ["http://b.com/z"] [] ↔
      "http://b.com/z" ∈ ["http://b.com/z"]) :=
  ⟨link_filter_exclusion_roundtrip.1 ["http://a.com/x", "http://bad.com/y"]
      ["https://bad.com/y?q=1"] "http://a.com/x" (by decide)
      "https://bad.com/y?q=1" (by decide),
   link_filter_exclusion_roundtrip.2 ["http://b.com/z"] "http://b.com/z"⟩

/-- C3 counterexample.  The claim says a crawl cycle whose candidate set
is emptied by filtering propagates a sentinel and never raises; at this
concrete input (one candidate, excluded by the caller) `web_crawl`
raises `ValueError`. -/
theorem web_crawl_empty_raises :
    web_crawl_filter ["http://x.com/a"] ["http://x.com/a"] [] 10
      = Except.error webCrawlErrorMsg := by rfl

/-- C3 (corrected).  `search_and_scrape` with zero search links does
return the `No links found` message sentinel, but `web_crawl` with all
candidate links filtered out raises `ValueError` instead of propagating a
sentinel. -/
theorem no_links_outcomes :
    (∀ query : String, search_and_scrape query []
      = some ("No links found for " ++ pyQuote ++ query ++ pyQuote ++ ". Try again")) ∧
    (∀ (urls ex cfg : List String) (m : Nat),
      link_filter (urls.filter fun u =>
        !(excludedSuffixes.any fun s => s.toList.isSuffixOf u.toList)) (ex ++ cfg) = [] →
      web_crawl_filter urls ex cfg m = Except.error webCrawlErrorMsg) := by
  constructor
  · intro q
    rfl
  · intro urls ex cfg m h
    simp only [web_crawl_filter]
    rw [h]
    rfl

/-- Witness for C3: a query with no links gets the message; a crawl whose
single candidate is dropped by the suffix filter raises. -/
theorem no_links_outcomes_witness :
    search_and_scrape "battery drains" []
      = some ("No links found for " ++ pyQuote ++ "battery drains" ++ pyQuote
          ++ ". Try again") ∧
    web_crawl_filter ["http://x.com/img.png"] [] [] 5
      = Except.error webCrawlErrorMsg :=
  ⟨no_links_outcomes.1 "battery drains",
   no_links_outcomes.2 ["http://x.com/img.png"] [] [] 5 (by decide)⟩

/-- C4 counterexample.  The claim says an absent index location with
`update=true` reports an `InvalidArgument` before any mutation and never
silently creates; at this concrete input both orchestration functions
select a fresh-creation call (no error value exists anywhere in their
branch structure). -/
theorem absent_update_no_error :
    create_load_vector_store false false true = VdbAction.createAt ∧
    create_and_save_local false true = VdbAction.createAtNone := ⟨rfl, rfl⟩

/-- C4 (corrected).  When the persist directory does not exist and
`update=true` is requested, `create_load_vector_store` falls through to
creating a fresh index at the directory, and `create_and_save_local`
creates one with a `None` location; neither reports an error. -/
theorem absent_update_silently_creates :
    (∀ force_reload : Bool,
      create_load_vector_store false force_reload true = VdbAction.createAt) ∧
    create_and_save_local false true = VdbAction.createAtNone := by
  constructor
  · intro f
    cases f <;> rfl
  · rfl

/-- C1 (code bug).  On the claim's own example — original URLs a, b, c;
used sources {b, c}; answer citing all three — the loop hits URL `a`
(present in the answer text but absent from `question_sources_map`) and
raises `KeyError`, instead of leaving the citation to `a` untouched. -/
theorem retrieval_remap_raises_keyerror :
    parse_retrieval_output ["http://a", "http://b", "http://c"]
      ["http://b", "http://c"]
      "x [<sup>1</sup>](http://a) [<sup>2</sup>](http://b) [<sup>3</sup>](http://c)"
      = none := by rfl

/-- C2 (code bug).  A chunk whose metadata records a source URL in first
position of the URL list is tagged `[reference:unknown]`, not
`[reference:1]`: the guard `'metadata' in chunk` is always `False` on a
pydantic document (string compared against `(field, value)` tuples), so
every chunk takes the unknown branch. -/
theorem chunk_references_always_unknown :
    get_text_chunks_with_references ["http://a"]
        [{ page_content := "hello", metadata := [("source", "http://a")] }]
      = [{ page_content := "[reference:unknown] hello\n\n",
           metadata := [("source", "http://a")] }] := by rfl
